import Mathlib

/-!
# gorouter: route matching, dispatch and reload

A shallow embedding of `router.go`.  The router holds pointers to `Route`
objects, so the embedding carries an explicit heap of routes; the response
writer, the middlewares and the decorators are modelled by explicit state
passing together with a log of the calls the router makes.
-/

namespace Gorouter

/-! ## A fragment of Go's `regexp.Match`

`regexp.Match(pattern, b)` compiles `pattern` and reports whether `b` contains
any match of it; it is a search, not a whole-input match.  The general theorems
below hold for every matcher.  The concrete scenarios evaluate the following
engine, which covers the fragment `^? (atom (* | + | ?)?)* $?` where an atom is
a literal character, `.`, one of `\d \D \w \W \s \S`, or an escaped punctuation
character.  A pattern outside the fragment is treated like one that does not
compile: no match. -/

/-- One-character matchers of the fragment. -/
inductive Atom where
  | lit (c : Char)
  | any
  | digit
  | notDigit
  | word
  | notWord
  | space
  | notSpace
  deriving DecidableEq, Repr

/-- Repetition operators of the fragment. -/
inductive Rep where
  | one
  | star
  | plus
  | opt
  deriving DecidableEq, Repr

/-- An atom together with its repetition operator. -/
structure Item where
  atom : Atom
  rep : Rep
  deriving DecidableEq, Repr

/-- A compiled pattern of the fragment: anchored at the beginning of the text or
not, a sequence of items, anchored at the end of the text or not. -/
structure Regexp where
  bol : Bool
  items : List Item
  eol : Bool
  deriving DecidableEq, Repr

/-- Perl class `\d`: the ASCII digits. -/
def isDigitChar (c : Char) : Bool := 48 ≤ c.toNat && c.toNat ≤ 57

/-- Perl class `\w`: ASCII letters, digits and the underscore. -/
def isWordChar (c : Char) : Bool :=
  isDigitChar c || (65 ≤ c.toNat && c.toNat ≤ 90) || (97 ≤ c.toNat && c.toNat ≤ 122)
    || c.toNat == 95

/-- Perl class `\s`: tab, newline, form feed, carriage return, space. -/
def isSpaceChar (c : Char) : Bool :=
  c.toNat == 9 || c.toNat == 10 || c.toNat == 12 || c.toNat == 13 || c.toNat == 32

/-- Whether an atom accepts a character; `.` accepts everything but a newline. -/
def Atom.accepts : Atom → Char → Bool
  | .lit c, x => x.toNat == c.toNat
  | .any, x => !(x.toNat == 10)
  | .digit, x => isDigitChar x
  | .notDigit, x => !isDigitChar x
  | .word, x => isWordChar x
  | .notWord, x => !isWordChar x
  | .space, x => isSpaceChar x
  | .notSpace, x => !isSpaceChar x

/-- Characters with a special meaning in a pattern. -/
def isMetaChar (c : Char) : Bool :=
  "\\.+*?()|[]{}^$".toList.any (fun m => m.toNat == c.toNat)

/-- ASCII punctuation, which a backslash turns into a literal. -/
def isPunctChar (c : Char) : Bool :=
  (33 ≤ c.toNat && c.toNat ≤ 47) || (58 ≤ c.toNat && c.toNat ≤ 64)
    || (91 ≤ c.toNat && c.toNat ≤ 96) || (123 ≤ c.toNat && c.toNat ≤ 126)

/-- Lexical tokens of a pattern. -/
inductive Tok where
  | atom (a : Atom)
  | rep (r : Rep)
  | caret
  | dollar
  deriving DecidableEq, Repr

/-- The atom denoted by an escape sequence, if it is in the fragment. -/
def escapeAtom (c : Char) : Option Atom :=
  if c.toNat == 100 then some .digit
  else if c.toNat == 68 then some .notDigit
  else if c.toNat == 119 then some .word
  else if c.toNat == 87 then some .notWord
  else if c.toNat == 115 then some .space
  else if c.toNat == 83 then some .notSpace
  else if isPunctChar c then some (.lit c)
  else none

/-- The token of an unescaped character, if it is in the fragment. -/
def plainTok (c : Char) : Option Tok :=
  if c.toNat == 46 then some (.atom .any)
  else if c.toNat == 42 then some (.rep .star)
  else if c.toNat == 43 then some (.rep .plus)
  else if c.toNat == 63 then some (.rep .opt)
  else if c.toNat == 94 then some .caret
  else if c.toNat == 36 then some .dollar
  else if isMetaChar c then none
  else some (.atom (.lit c))

/-- Split a pattern into tokens. -/
def tokenize : List Char → Option (List Tok)
  | [] => some []
  | [c] => if c.toNat == 92 then none else (plainTok c).map (fun t => [t])
  | c :: d :: rest =>
    if c.toNat == 92 then
      match escapeAtom d, tokenize rest with
      | some a, some ts => some (.atom a :: ts)
      | _, _ => none
    else
      match plainTok c, tokenize (d :: rest) with
      | some t, some ts => some (t :: ts)
      | _, _ => none

/-- Group the tokens after the optional `^` into items and a trailing `$`. -/
def parseItems : List Tok → Option (List Item × Bool)
  | [] => some ([], false)
  | [.dollar] => some ([], true)
  | .atom a :: .rep r :: rest =>
    (parseItems rest).map (fun p => (⟨a, r⟩ :: p.1, p.2))
  | .atom a :: rest =>
    (parseItems rest).map (fun p => (⟨a, .one⟩ :: p.1, p.2))
  | _ => none

/-- Compile a pattern of the fragment. -/
def compile (pattern : String) : Option Regexp :=
  match tokenize pattern.toList with
  | none => none
  | some (.caret :: ts) => (parseItems ts).map (fun p => ⟨true, p.1, p.2⟩)
  | some ts => (parseItems ts).map (fun p => ⟨false, p.1, p.2⟩)

/-- Match `a*` followed by the continuation `k`. -/
def matchStar (a : Atom) (k : List Char → Bool) : List Char → Bool
  | [] => k []
  | c :: t => k (c :: t) || (a.accepts c && matchStar a k t)

/-- Match the items at the beginning of the text; with `eol` the match must end
at the end of the text. -/
def matchHere (eol : Bool) : List Item → List Char → Bool
  | [], s => !eol || s.isEmpty
  | ⟨a, .one⟩ :: is, s =>
    match s with
    | [] => false
    | c :: t => a.accepts c && matchHere eol is t
  | ⟨a, .opt⟩ :: is, s =>
    (match s with
      | [] => false
      | c :: t => a.accepts c && matchHere eol is t) || matchHere eol is s
  | ⟨a, .star⟩ :: is, s => matchStar a (fun t => matchHere eol is t) s
  | ⟨a, .plus⟩ :: is, s =>
    match s with
    | [] => false
    | c :: t => a.accepts c && matchStar a (fun u => matchHere eol is u) t

/-- Search the text for a match starting at any position. -/
def searchFrom (eol : Bool) (items : List Item) : List Char → Bool
  | [] => matchHere eol items []
  | c :: t => matchHere eol items (c :: t) || searchFrom eol items t

/-- The matcher of the fragment: whether the text contains a match. -/
def Regexp.search (re : Regexp) (s : List Char) : Bool :=
  if re.bol then matchHere re.eol re.items s else searchFrom re.eol re.items s

/-- Model of `matched, _ := regexp.Match(pattern, []byte(s))` on the fragment. -/
def regexpMatch (pattern : String) (s : String) : Bool :=
  match compile pattern with
  | none => false
  | some re => re.search s.toList

/-! ## Data model -/

/-- Address of a `Route` object; a `*Route` is an `Option Ptr` with `none` for
`nil`. -/
abbrev Ptr := Nat

/-- The `Route` struct, with the fields of the composite literal in
`CreateRoute`.  Handlers are opaque callables of type `H`; `none` is the `nil`
function value. -/
structure Route (H : Type) where
  name : String
  methods : List String
  pattern : String
  handlerFunc : Option H
  deriving DecidableEq, Repr

/-- The zero value `Route{}`. -/
def Route.blank {H : Type} : Route H := ⟨"", [], "", none⟩

/-- The `Route` objects that exist, by address. -/
abbrev Heap (H : Type) := List (Route H)

/-- The object a pointer refers to. -/
def Heap.deref {H : Type} (h : Heap H) (p : Ptr) : Route H := h.getD p Route.blank

/-- Modelled from the spec: the accessor `Route.GetPattern`, whose body is not
part of the source; a pure accessor of the `pattern` field. -/
def GetPattern {H : Type} (h : Heap H) (route : Ptr) : String := (h.deref route).pattern

/-- Modelled from the spec: the accessor `Route.GetName`, whose body is not part
of the source; a pure accessor of the `name` field. -/
def GetName {H : Type} (h : Heap H) (route : Ptr) : String := (h.deref route).name

/-- Modelled from the spec: the accessor `Route.GetMethods`, whose body is not
part of the source; a pure accessor of the `methods` field. -/
def GetMethods {H : Type} (h : Heap H) (route : Ptr) : List String := (h.deref route).methods

/-- Modelled from the spec: the accessor `Route.GetHandlerFunc`, whose body is
not part of the source; a pure accessor of the `handlerFunc` field. -/
def GetHandlerFunc {H : Type} (h : Heap H) (route : Ptr) : Option H :=
  (h.deref route).handlerFunc

/-- Modelled from the spec: the setter `Route.SetName`, whose body is not part of
the source; it stores the name in the route and returns the same route. -/
def SetName {H : Type} (h : Heap H) (route : Ptr) (name : String) : Heap H :=
  h.set route { h.deref route with name := name }

/-- Modelled from the spec: the setter `Route.SetMethods`, whose body is not part
of the source; it stores the methods in the route and returns the same route. -/
def SetMethods {H : Type} (h : Heap H) (route : Ptr) (methods : List String) : Heap H :=
  h.set route { h.deref route with methods := methods }

/-- Modelled from the spec: the setter `Route.SetPattern`, whose body is not part
of the source; it stores the pattern in the route and returns the same route. -/
def SetPattern {H : Type} (h : Heap H) (route : Ptr) (pattern : String) : Heap H :=
  h.set route { h.deref route with pattern := pattern }

/-- Modelled from the spec: the setter `Route.SetHandlerFunc`, whose body is not
part of the source; it stores the handler in the route and returns the same
route. -/
def SetHandlerFunc {H : Type} (h : Heap H) (route : Ptr) (handlerFunc : Option H) : Heap H :=
  h.set route { h.deref route with handlerFunc := handlerFunc }

/-- The part of `*http.Request` the router and its middlewares look at. -/
structure Request where
  Method : String
  Path : String
  deriving DecidableEq, Repr

/-- An `http.ResponseWriter`: the header map, the status line once it is
written, and the body written so far. -/
structure ResponseWriter where
  header : List (String × String)
  status : Option Nat
  body : String
  deriving DecidableEq, Repr

/-- A response writer nothing has been written to. -/
def ResponseWriter.fresh : ResponseWriter := ⟨[], none, ""⟩

/-- The call `rw.Header().Set(key, value)`. -/
def ResponseWriter.SetHeader (rw : ResponseWriter) (key value : String) : ResponseWriter :=
  { rw with header := (key, value) :: rw.header.filter (fun kv => kv.1 != key) }

/-- The call `rw.WriteHeader(code)`: the first call fixes the status. -/
def ResponseWriter.WriteHeader (rw : ResponseWriter) (code : Nat) : ResponseWriter :=
  match rw.status with
  | none => { rw with status := some code }
  | some _ => rw

/-- The call `rw.Write(b)`: without an earlier `WriteHeader` the first write
sends status 200. -/
def ResponseWriter.Write (rw : ResponseWriter) (b : String) : ResponseWriter :=
  { rw.WriteHeader 200 with body := rw.body ++ b }

/-- The status the client receives once the handler has returned: 200 when
nothing fixed it. -/
def ResponseWriter.finalStatus (rw : ResponseWriter) : Nat := rw.status.getD 200

/-- Modelled from the spec: the `Middleware` type, whose declaration is not part
of the source; `handler` is called with the request and the matched route and
returns an error or nil.  It may read the routes and act on a state `σ` of its
own; its error is represented by its message. -/
structure Middleware (σ H : Type) where
  handler : σ → Heap H → Request → Ptr → σ × Option String

/-- Modelled from the spec: the `RouteDecorator` type, whose declaration is not
part of the source; a function from the inner handler and the route to the
wrapped handler. -/
abbrev RouteDecorator (H : Type) := Option H → Route H → Option H

/-- The `Router` struct. -/
structure Router (σ H : Type) where
  routeDecorators : List (RouteDecorator H)
  registeredRoutes : List Ptr
  routesChanged : Bool
  activeMiddlewares : List (Middleware σ H)

/-- The regular-expression matcher: `rx pattern text` is the first result of
`regexp.Match(pattern, []byte(text))`. -/
abbrev Matcher := String → String → Bool

/-- A call the router makes to a caller-supplied function while serving. -/
inductive Call where
  | middleware (index : Nat) (req : Request) (route : Ptr)
  | handlerFunc (route : Ptr) (req : Request)
  deriving DecidableEq, Repr

/-! ## Operations -/

section Operations

variable {σ H : Type}

/-- The loop of `GetRouteByPath`: the first route whose pattern matches. -/
def GetRouteByPath.scan (rx : Matcher) (h : Heap H) (path : String) : List Ptr → Option Ptr
  | [] => none
  | route :: rest =>
    if rx (GetPattern h route) path then some route else GetRouteByPath.scan rx h path rest

/-- The method `Router.GetRouteByPath`. -/
def GetRouteByPath (rx : Matcher) (h : Heap H) (r : Router σ H) (path : String) : Option Ptr :=
  GetRouteByPath.scan rx h path r.registeredRoutes

/-- What one call of `ServeHTTP` leaves behind: the middlewares' state, the
response writer, and the calls made, oldest first. -/
structure Served (σ : Type) where
  env : σ
  rw : ResponseWriter
  calls : List Call

/-- The middleware loop of `ServeHTTP`; `i` is the index of the next
middleware. -/
def ServeHTTP.chain (h : Heap H) (req : Request) (route : Ptr) :
    List (Middleware σ H) → Nat → σ → ResponseWriter → List Call → Served σ
  | [], _, env, rw, calls => ⟨env, rw, calls⟩
  | middleware :: rest, i, env, rw, calls =>
    match middleware.handler env h req route with
    | (env1, some err) => ⟨env1, rw.Write err, calls ++ [Call.middleware i req route]⟩
    | (env1, none) =>
      ServeHTTP.chain h req route rest (i + 1) env1 rw (calls ++ [Call.middleware i req route])

/-- The method `Router.ServeHTTP`. -/
def ServeHTTP (rx : Matcher) (h : Heap H) (r : Router σ H) (env : σ) (rw : ResponseWriter)
    (req : Request) : Served σ :=
  let rw1 := rw.SetHeader "Access-Control-Allow-Origin" "*"
  match GetRouteByPath rx h r req.Path with
  | none => ⟨env, (rw1.WriteHeader 404).Write "404", []⟩
  | some route => ServeHTTP.chain h req route r.activeMiddlewares 0 env rw1 []

/-- The method `Router.GetRoute`. -/
def GetRoute (_h : Heap H) (_r : Router σ H) (_name : String) : Option Ptr := none

/-- The method `Router.NewRoute`: a fresh blank route, not yet registered. -/
def NewRoute (h : Heap H) : Heap H × Ptr := (h ++ [Route.blank], h.length)

/-- The method `Router.AddRoute`. -/
def AddRoute (r : Router σ H) (route : Ptr) : Router σ H :=
  { r with registeredRoutes := r.registeredRoutes ++ [route], routesChanged := true }

/-- The method `Router.CreateRoute`. -/
def CreateRoute (h : Heap H) (r : Router σ H) (name pattern : String) (handlerFunc : Option H)
    (methods : List String) : Heap H × Router σ H × Ptr :=
  let newRoute : Route H := ⟨name, methods, pattern, handlerFunc⟩
  (h ++ [newRoute], AddRoute r h.length, h.length)

/-- An application of a decorator during a reload. -/
structure Decoration where
  index : Nat
  route : Ptr
  deriving DecidableEq, Repr

/-- The decorator loop of `ReloadRoutes`; `i` is the index of the next
decorator. -/
def ReloadRoutes.decorate (route : Ptr) (value : Route H) :
    List (RouteDecorator H) → Nat → Option H → List Decoration → Option H × List Decoration
  | [], _, handler, log => (handler, log)
  | d :: rest, i, handler, log =>
    ReloadRoutes.decorate route value rest (i + 1) (d handler value) (log ++ [⟨i, route⟩])

/-- What a reload leaves behind: the routes, the router, and the decorator
applications made, oldest first. -/
structure Reloaded (σ H : Type) where
  heap : Heap H
  router : Router σ H
  applied : List Decoration

/-- One iteration of the route loop of `ReloadRoutes`. -/
def ReloadRoutes.step (st : Reloaded σ H) (route : Ptr) : Reloaded σ H :=
  let found := GetRoute st.heap st.router (GetName st.heap route)
  let decorated := ReloadRoutes.decorate route (st.heap.deref route) st.router.routeDecorators 0
    (GetHandlerFunc st.heap route) st.applied
  let (h0, r0, internalRoute) : Heap H × Router σ H × Ptr :=
    match found with
    | none => ((NewRoute st.heap).1, AddRoute st.router (NewRoute st.heap).2, (NewRoute st.heap).2)
    | some p => (st.heap, st.router, p)
  let h1 := SetName h0 internalRoute (GetName h0 route)
  let h2 := SetMethods h1 internalRoute (GetMethods h1 route)
  let h3 := SetPattern h2 internalRoute (GetPattern h2 route)
  let h4 := SetHandlerFunc h3 internalRoute (GetHandlerFunc h3 route)
  ⟨h4, r0, decorated.2⟩

/-- The method `Router.ReloadRoutes`.  The `range` clause reads the slice once,
so the loop visits the routes registered when it starts. -/
def ReloadRoutes (h : Heap H) (r : Router σ H) : Reloaded σ H :=
  if !r.routesChanged then ⟨h, r, []⟩
  else
    let st := r.registeredRoutes.foldl ReloadRoutes.step ⟨h, r, []⟩
    ⟨st.heap, { st.router with routesChanged := false }, st.applied⟩

/-- The function `NewRouter`. -/
def NewRouter : Reloaded σ H := ReloadRoutes [] ⟨[], [], false, []⟩

end Operations

/-! ## Scenarios -/

/-- The pattern `^/items/\d+$`. -/
def itemsPattern : String := "^/items/\\d+$"

/-- Route `a`, then route `b`, both with the pattern `^/items/\d+$`, registered on
a new router; handlers are numbered. -/
def itemsAB : Heap Nat × Router Unit Nat × Ptr :=
  let s0 : Reloaded Unit Nat := NewRouter
  let s1 := CreateRoute s0.heap s0.router "a" itemsPattern (some 1) []
  CreateRoute s1.1 s1.2.1 "b" itemsPattern (some 2) []

/-- The same two routes registered in the opposite order. -/
def itemsBA : Heap Nat × Router Unit Nat × Ptr :=
  let s0 : Reloaded Unit Nat := NewRouter
  let s1 := CreateRoute s0.heap s0.router "b" itemsPattern (some 2) []
  CreateRoute s1.1 s1.2.1 "a" itemsPattern (some 1) []

/-- A new router with a single route of the given pattern and methods. -/
def single (name pattern : String) (methods : List String) : Heap Nat × Router Unit Nat × Ptr :=
  let s0 : Reloaded Unit Nat := NewRouter
  CreateRoute s0.heap s0.router name pattern (some 1) methods

/-- The state of the middlewares after the first `k` of them have been called in
order on the request and the route. -/
def envAfter {σ H : Type} (h : Heap H) (req : Request) (route : Ptr) :
    List (Middleware σ H) → σ → Nat → σ
  | [], env, _ => env
  | _ :: _, env, 0 => env
  | m :: ms, env, k + 1 => envAfter h req route ms (m.handler env h req route).1 k

/-- What the middleware at index `k` returns when it is called after the `k`
middlewares before it: `none` for nil, also when there is no such middleware. -/
def errAt {σ H : Type} (h : Heap H) (req : Request) (route : Ptr) (ms : List (Middleware σ H))
    (env : σ) (k : Nat) : Option String :=
  match ms[k]? with
  | none => none
  | some m => (m.handler (envAfter h req route ms env k) h req route).2

/-- A middleware that counts its call and returns nil. -/
def passing : Middleware Nat Nat := ⟨fun env _ _ _ => (env + 1, none)⟩

/-- A middleware that counts its call and returns an error. -/
def rejecting (msg : String) : Middleware Nat Nat := ⟨fun env _ _ _ => (env + 1, some msg)⟩

/-- The route `home` (pattern `^/$`, methods `[GET]`) on a new router with the
given middlewares, which share a call counter. -/
def home (ms : List (Middleware Nat Nat)) : Heap Nat × Router Nat Nat × Ptr :=
  let s0 : Reloaded Nat Nat := NewRouter
  let s1 := CreateRoute s0.heap s0.router "home" "^/$" (some 1) ["GET"]
  (s1.1, { s1.2.1 with activeMiddlewares := ms }, s1.2.2)

/-- Serve a request on the `home` router with a fresh response writer and the
call counter at zero. -/
def serveHome (ms : List (Middleware Nat Nat)) (method path : String) : Served Nat :=
  ServeHTTP regexpMatch (home ms).1 (home ms).2.1 0 ResponseWriter.fresh ⟨method, path⟩

/-- A decorator that renumbers the handler it wraps. -/
def wrapping : RouteDecorator Nat := fun handler _ => handler.map (fun n => n + 10)

/-- A router in the Clean state with one registered route, one decorator and one
middleware. -/
def cleanRouter : Heap Nat × Router Nat Nat :=
  ([⟨"home", ["GET"], "^/$", some 1⟩], ⟨[wrapping], [0], false, [passing]⟩)

/-- The router with routes `a` then `b` and one decorator, in the Dirty state
that the two registrations leave. -/
def dirtyRouter : Heap Nat × Router Unit Nat :=
  (itemsAB.1, { itemsAB.2.1 with routeDecorators := [wrapping] })

/-- The names of the registered routes, in order. -/
def regNames {σ H : Type} (h : Heap H) (r : Router σ H) : List String :=
  r.registeredRoutes.map (GetName h)

/-- A registration call made by the user of the router: `CreateRoute`, or
`AddRoute` of a route object the caller has just built. -/
inductive Registration (H : Type) where
  | create (name pattern : String) (handlerFunc : Option H) (methods : List String)
  | add (route : Route H)

/-- The name the caller registers. -/
def Registration.name {H : Type} : Registration H → String
  | .create name _ _ _ => name
  | .add route => route.name

/-- The effect of a registration call on the routes and the router. -/
def Registration.apply {σ H : Type} (s : Heap H × Router σ H) :
    Registration H → Heap H × Router σ H
  | .create name pattern handlerFunc methods =>
    ((CreateRoute s.1 s.2 name pattern handlerFunc methods).1,
      (CreateRoute s.1 s.2 name pattern handlerFunc methods).2.1)
  | .add route => (s.1 ++ [route], AddRoute s.2 s.1.length)

/-- A new router after a sequence of registration calls, without a reload. -/
def registerAll {σ H : Type} (ops : List (Registration H)) : Heap H × Router σ H :=
  ops.foldl Registration.apply ((NewRouter : Reloaded σ H).heap, (NewRouter : Reloaded σ H).router)

/-- A heap with the single route `home` and a new router, on which nothing is
registered yet. -/
def unregistered : Heap Nat × Router Unit Nat :=
  ([⟨"home", ["GET"], "^/$", some 1⟩], (NewRouter : Reloaded Unit Nat).router)

/-- Three registrations on a new router: the name `a` twice, then the empty
name. -/
def duplicates : Heap Nat × Router Unit Nat :=
  registerAll [.create "a" "^/a$" (some 1) [], .create "a" "^/b$" (some 2) [],
    .create "" "^/c$" (some 3) []]

/-- The pattern `(`, which does not compile: the parenthesis is never closed. -/
def badPattern : String := "("

/-- The route `home` followed by a route with the pattern `(`, registered on a
new router. -/
def withBadPattern : Heap Nat × Router Unit Nat × Ptr :=
  CreateRoute (single "home" "^/$" ["GET"]).1 (single "home" "^/$" ["GET"]).2.1 "bad" badPattern
    (some 2) []

/-! ## Lemmas on the route scan -/

section ScanLemmas

variable {H : Type}

theorem scan_eq_none_iff (rx : Matcher) (h : Heap H) (path : String) (l : List Ptr) :
    GetRouteByPath.scan rx h path l = none ↔ ∀ q ∈ l, rx (GetPattern h q) path = false := by
  induction l with
  | nil => simp [GetRouteByPath.scan]
  | cons a t ih =>
    by_cases ha : rx (GetPattern h a) path = true
    · simp [GetRouteByPath.scan, ha]
    · simp [GetRouteByPath.scan, ha, ih]

theorem scan_eq_some (rx : Matcher) (h : Heap H) (path : String) (l : List Ptr) (p : Ptr)
    (hp : GetRouteByPath.scan rx h path l = some p) :
    ∃ i : Nat, l[i]? = some p ∧ rx (GetPattern h p) path = true ∧
      ∀ j : Nat, j < i → ∀ q, l[j]? = some q → rx (GetPattern h q) path = false := by
  induction l with
  | nil => simp [GetRouteByPath.scan] at hp
  | cons a t ih =>
    by_cases ha : rx (GetPattern h a) path = true
    · simp only [GetRouteByPath.scan, ha, if_true, Option.some.injEq] at hp
      subst hp
      exact ⟨0, by simp, ha, by intro j hj; omega⟩
    · simp only [GetRouteByPath.scan, ha] at hp
      obtain ⟨i, hi, hm, hlt⟩ := ih hp
      refine ⟨i + 1, by simpa using hi, hm, ?_⟩
      intro j hj q hq
      cases j with
      | zero =>
        simp only [List.getElem?_cons_zero, Option.some.injEq] at hq
        subst hq
        simpa using ha
      | succ k =>
        exact hlt k (by omega) q (by simpa using hq)

theorem scan_mem (rx : Matcher) (h : Heap H) (path : String) (l : List Ptr) (p : Ptr)
    (hp : GetRouteByPath.scan rx h path l = some p) : p ∈ l := by
  obtain ⟨i, hi, _⟩ := scan_eq_some rx h path l p hp
  exact List.getElem?_mem hi

end ScanLemmas

/-! ## Route matching -/

/-- C1: first match wins.  If `GetRouteByPath` returns a route, the route sits at
an index of `registeredRoutes`, its pattern matches the path, and no route at a
smaller index has a matching pattern; with routes `a` then `b` of pattern
`^/items/\d+$` the path `/items/123` selects `a`, and in the opposite
registration order it selects `b`. -/
theorem first_match_wins :
    (∀ (σ H : Type) (rx : Matcher) (h : Heap H) (r : Router σ H) (path : String) (p : Ptr),
      GetRouteByPath rx h r path = some p →
        ∃ i : Nat, r.registeredRoutes[i]? = some p ∧ rx (GetPattern h p) path = true ∧
          ∀ j : Nat, j < i → ∀ q, r.registeredRoutes[j]? = some q →
            rx (GetPattern h q) path = false) ∧
    (∃ p, GetRouteByPath regexpMatch itemsAB.1 itemsAB.2.1 "/items/123" = some p ∧
      GetName itemsAB.1 p = "a") ∧
    (∃ p, GetRouteByPath regexpMatch itemsBA.1 itemsBA.2.1 "/items/123" = some p ∧
      GetName itemsBA.1 p = "b") := by
  refine ⟨?_, ⟨0, by decide, by decide⟩, ⟨0, by decide, by decide⟩⟩
  intro σ H rx h r path p hp
  exact scan_eq_some rx h path r.registeredRoutes p hp

/-- Witness of C1 on the router with routes `a` then `b`. -/
theorem first_match_wins_witness :
    ∃ i : Nat, itemsAB.2.1.registeredRoutes[i]? = some 0 ∧
      regexpMatch (GetPattern itemsAB.1 0) "/items/123" = true ∧
      ∀ j : Nat, j < i → ∀ q, itemsAB.2.1.registeredRoutes[j]? = some q →
        regexpMatch (GetPattern itemsAB.1 q) "/items/123" = false :=
  first_match_wins.1 Unit Nat regexpMatch itemsAB.1 itemsAB.2.1 "/items/123" 0 (by decide)

/-- C2: `GetRouteByPath` returns nil exactly when no registered route has a
pattern matching the path, and a route it returns is an element of
`registeredRoutes`. -/
theorem no_match_iff_nil {σ H : Type} (rx : Matcher) (h : Heap H) (r : Router σ H)
    (path : String) :
    (GetRouteByPath rx h r path = none ↔
      ∀ q ∈ r.registeredRoutes, rx (GetPattern h q) path = false) ∧
    (∀ p, GetRouteByPath rx h r path = some p → p ∈ r.registeredRoutes) :=
  ⟨scan_eq_none_iff rx h path r.registeredRoutes,
    fun p hp => scan_mem rx h path r.registeredRoutes p hp⟩

/-- Witness of C2 on the router with routes `a` then `b`: a path no pattern
matches gives nil, and the route returned for `/items/123` is registered. -/
theorem no_match_iff_nil_witness :
    GetRouteByPath regexpMatch itemsAB.1 itemsAB.2.1 "/other" = none ∧
      0 ∈ itemsAB.2.1.registeredRoutes :=
  ⟨(no_match_iff_nil regexpMatch itemsAB.1 itemsAB.2.1 "/other").1.2 (by decide),
    (no_match_iff_nil regexpMatch itemsAB.1 itemsAB.2.1 "/items/123").2 0 (by decide)⟩

/-- C3, as stated, fails: the router whose only route has the pattern `/users`
returns that route for the path `/users-extra`. -/
theorem unanchored_pattern_matches_longer_path :
    GetRouteByPath regexpMatch (single "users" "/users" []).1 (single "users" "/users" []).2.1
        "/users-extra" = some 0 ∧
      GetPattern (single "users" "/users" []).1 0 = "/users" := by
  decide

/-- C3, amended: `GetRouteByPath` selects a route only if `regexp.Match` reports
a match of its pattern in the path, which is a search; the whole path has to
match only when the pattern is anchored.  With the single pattern `^/users$` the
path `/users-extra` has no match and `/users` has one; with `/users` both paths
select the route. -/
theorem match_is_search :
    (∀ (σ H : Type) (rx : Matcher) (h : Heap H) (r : Router σ H) (path : String) (p : Ptr),
      GetRouteByPath rx h r path = some p → rx (GetPattern h p) path = true) ∧
    GetRouteByPath regexpMatch (single "users" "^/users$" []).1
      (single "users" "^/users$" []).2.1 "/users-extra" = none ∧
    GetRouteByPath regexpMatch (single "users" "^/users$" []).1
      (single "users" "^/users$" []).2.1 "/users" = some 0 ∧
    GetRouteByPath regexpMatch (single "users" "/users" []).1
      (single "users" "/users" []).2.1 "/users" = some 0 ∧
    GetRouteByPath regexpMatch (single "users" "/users" []).1
      (single "users" "/users" []).2.1 "/users-extra" = some 0 := by
  refine ⟨?_, by decide, by decide, by decide, by decide⟩
  intro σ H rx h r path p hp
  obtain ⟨_, _, hm, _⟩ := scan_eq_some rx h path r.registeredRoutes p hp
  exact hm

/-- Witness of the amended C3 on the router with routes `a` then `b`. -/
theorem match_is_search_witness :
    regexpMatch (GetPattern itemsAB.1 0) "/items/123" = true :=
  match_is_search.1 Unit Nat regexpMatch itemsAB.1 itemsAB.2.1 "/items/123" 0 (by decide)

/-! ## Lemmas on the middleware chain -/

section ChainLemmas

variable {σ H : Type}

theorem errAt_cons_zero (h : Heap H) (req : Request) (route : Ptr) (m : Middleware σ H)
    (ms : List (Middleware σ H)) (env : σ) :
    errAt h req route (m :: ms) env 0 = (m.handler env h req route).2 := by
  simp [errAt, envAfter]

theorem errAt_cons_succ (h : Heap H) (req : Request) (route : Ptr) (m : Middleware σ H)
    (ms : List (Middleware σ H)) (env : σ) (k : Nat) :
    errAt h req route (m :: ms) env (k + 1)
      = errAt h req route ms (m.handler env h req route).1 k := by
  simp [errAt, envAfter]

theorem envAfter_nil (h : Heap H) (req : Request) (route : Ptr) (env : σ) (k : Nat) :
    envAfter h req route ([] : List (Middleware σ H)) env k = env := by
  cases k <;> rfl

theorem range_succ_map_shift (f : Nat → Call) (n : Nat) :
    (List.range (n + 1)).map f = f 0 :: (List.range n).map (fun k => f (k + 1)) := by
  rw [List.range_succ_eq_map, List.map_cons, List.map_map]
  rfl

/-- The chain stops at the first middleware that returns an error. -/
theorem chain_first_error (h : Heap H) (req : Request) (route : Ptr)
    (ms : List (Middleware σ H)) (i0 : Nat) (env : σ) (rw : ResponseWriter) (calls : List Call)
    (n : Nat) (e : String)
    (hnil : ∀ j, j < n → errAt h req route ms env j = none)
    (herr : errAt h req route ms env n = some e) :
    ServeHTTP.chain h req route ms i0 env rw calls =
      ⟨envAfter h req route ms env (n + 1), rw.Write e,
        calls ++ (List.range (n + 1)).map (fun k => Call.middleware (i0 + k) req route)⟩ := by
  induction ms generalizing i0 env calls n with
  | nil => simp [errAt] at herr
  | cons m ms ih =>
    cases n with
    | zero =>
      rw [errAt_cons_zero] at herr
      rcases hm : m.handler env h req route with ⟨env1, r⟩
      rw [hm] at herr
      simp only at herr
      subst herr
      cases ms <;> simp [ServeHTTP.chain, hm, envAfter, List.range_succ]
    | succ k =>
      have h0 := hnil 0 (by omega)
      rw [errAt_cons_zero] at h0
      rcases hm : m.handler env h req route with ⟨env1, r⟩
      rw [hm] at h0
      simp only at h0
      subst h0
      rw [errAt_cons_succ, hm] at herr
      have hnil1 : ∀ j, j < k → errAt h req route ms env1 j = none := by
        intro j hj
        have := hnil (j + 1) (by omega)
        rwa [errAt_cons_succ, hm] at this
      have := ih (i0 + 1) env1 (calls ++ [Call.middleware i0 req route]) k hnil1 herr
      simp only [ServeHTTP.chain, hm, this, envAfter]
      rw [range_succ_map_shift (fun k => Call.middleware (i0 + k) req route) (k + 1)]
      simp [Nat.add_assoc, Nat.add_comm 1]

/-- When every middleware returns nil the chain calls them all and writes
nothing. -/
theorem chain_all_nil (h : Heap H) (req : Request) (route : Ptr)
    (ms : List (Middleware σ H)) (i0 : Nat) (env : σ) (rw : ResponseWriter) (calls : List Call)
    (hnil : ∀ j, j < ms.length → errAt h req route ms env j = none) :
    ServeHTTP.chain h req route ms i0 env rw calls =
      ⟨envAfter h req route ms env ms.length, rw,
        calls ++ (List.range ms.length).map (fun k => Call.middleware (i0 + k) req route)⟩ := by
  induction ms generalizing i0 env calls with
  | nil => simp [ServeHTTP.chain, envAfter]
  | cons m ms ih =>
    have h0 := hnil 0 (by simp)
    rw [errAt_cons_zero] at h0
    rcases hm : m.handler env h req route with ⟨env1, r⟩
    rw [hm] at h0
    simp only at h0
    subst h0
    have hnil1 : ∀ j, j < ms.length → errAt h req route ms env1 j = none := by
      intro j hj
      have := hnil (j + 1) (by simpa using hj)
      rwa [errAt_cons_succ, hm] at this
    have := ih (i0 + 1) env1 (calls ++ [Call.middleware i0 req route]) hnil1
    simp only [ServeHTTP.chain, hm, this, envAfter, List.length_cons]
    rw [range_succ_map_shift (fun k => Call.middleware (i0 + k) req route) ms.length]
    simp [Nat.add_assoc, Nat.add_comm 1]

/-- The chain only ever records middleware calls. -/
theorem chain_calls_middleware (h : Heap H) (req : Request) (route : Ptr)
    (ms : List (Middleware σ H)) (i0 : Nat) (env : σ) (rw : ResponseWriter) (calls : List Call)
    (c : Call) (hc : c ∈ (ServeHTTP.chain h req route ms i0 env rw calls).calls) :
    c ∈ calls ∨ ∃ i, c = Call.middleware i req route := by
  induction ms generalizing i0 env calls with
  | nil => exact Or.inl (by simpa [ServeHTTP.chain] using hc)
  | cons m ms ih =>
    rcases hm : m.handler env h req route with ⟨env1, r⟩
    cases r with
    | some err =>
      simp only [ServeHTTP.chain, hm, List.mem_append, List.mem_singleton] at hc
      rcases hc with hc | hc
      · exact Or.inl hc
      · exact Or.inr ⟨i0, hc⟩
    | none =>
      simp only [ServeHTTP.chain, hm] at hc
      rcases ih (i0 + 1) env1 _ hc with hc | hc
      · rcases List.mem_append.1 hc with hc | hc
        · exact Or.inl hc
        · exact Or.inr ⟨i0, by simpa using hc⟩
      · exact Or.inr hc

/-- The chain never calls `WriteHeader`: starting from an unwritten response the
status stays unwritten or becomes the implicit 200 of the first write. -/
theorem chain_status (h : Heap H) (req : Request) (route : Ptr)
    (ms : List (Middleware σ H)) (i0 : Nat) (env : σ) (rw : ResponseWriter) (calls : List Call)
    (hrw : rw.status = none) :
    (ServeHTTP.chain h req route ms i0 env rw calls).rw.finalStatus = 200 := by
  induction ms generalizing i0 env calls with
  | nil => simp [ServeHTTP.chain, ResponseWriter.finalStatus, hrw]
  | cons m ms ih =>
    rcases hm : m.handler env h req route with ⟨env1, r⟩
    cases r with
    | some err =>
      simp [ServeHTTP.chain, hm, ResponseWriter.finalStatus, ResponseWriter.Write,
        ResponseWriter.WriteHeader, hrw]
    | none =>
      simp only [ServeHTTP.chain, hm]
      exact ih _ _ _

/-- The chain keeps the calls recorded before it. -/
theorem chain_calls_extend (h : Heap H) (req : Request) (route : Ptr)
    (ms : List (Middleware σ H)) (i0 : Nat) (env : σ) (rw : ResponseWriter) (calls : List Call) :
    ∃ rest, (ServeHTTP.chain h req route ms i0 env rw calls).calls = calls ++ rest := by
  induction ms generalizing i0 env calls with
  | nil => exact ⟨[], by simp [ServeHTTP.chain]⟩
  | cons m ms ih =>
    rcases hm : m.handler env h req route with ⟨env1, r⟩
    cases r with
    | some err => exact ⟨[Call.middleware i0 req route], by simp [ServeHTTP.chain, hm]⟩
    | none =>
      obtain ⟨rest, hrest⟩ := ih (i0 + 1) env1 (calls ++ [Call.middleware i0 req route])
      exact ⟨Call.middleware i0 req route :: rest, by simp [ServeHTTP.chain, hm, hrest]⟩

/-- A non-empty chain calls its first middleware first, with the request and the
route. -/
theorem chain_calls_head (h : Heap H) (req : Request) (route : Ptr) (m : Middleware σ H)
    (ms : List (Middleware σ H)) (env : σ) (rw : ResponseWriter) :
    (ServeHTTP.chain h req route (m :: ms) 0 env rw []).calls.head?
      = some (Call.middleware 0 req route) := by
  rcases hm : m.handler env h req route with ⟨env1, r⟩
  cases r with
  | some err => simp [ServeHTTP.chain, hm]
  | none =>
    obtain ⟨rest, hrest⟩ :=
      chain_calls_extend h req route ms 1 env1 rw [Call.middleware 0 req route]
    simp [ServeHTTP.chain, hm, hrest]

/-- Two requests that every middleware of the chain treats alike leave the same
response and the same middleware state. -/
theorem chain_req_blind (h : Heap H) (req1 req2 : Request) (route : Ptr)
    (ms : List (Middleware σ H))
    (hblind : ∀ m ∈ ms, ∀ e : σ, m.handler e h req1 route = m.handler e h req2 route)
    (i0 : Nat) (env : σ) (rw : ResponseWriter) (calls1 calls2 : List Call) :
    (ServeHTTP.chain h req1 route ms i0 env rw calls1).rw
        = (ServeHTTP.chain h req2 route ms i0 env rw calls2).rw ∧
      (ServeHTTP.chain h req1 route ms i0 env rw calls1).env
        = (ServeHTTP.chain h req2 route ms i0 env rw calls2).env := by
  induction ms generalizing i0 env calls1 calls2 with
  | nil => simp [ServeHTTP.chain]
  | cons m ms ih =>
    have hm12 := hblind m (by simp) env
    have ht : ∀ m ∈ ms, ∀ e : σ, m.handler e h req1 route = m.handler e h req2 route :=
      fun m' hm' e => hblind m' (by simp [hm']) e
    rcases hm : m.handler env h req2 route with ⟨env1, r⟩
    rw [hm] at hm12
    cases r with
    | some err => simp [ServeHTTP.chain, hm, hm12]
    | none =>
      simp only [ServeHTTP.chain, hm, hm12]
      exact ih ht _ _ _ _

end ChainLemmas

/-! ## Dispatch -/

/-- C4, as stated, fails: with the route `home` of pattern `^/$` and methods
`[GET]`, a POST to `/` is not answered 405; nothing is written and the status is
the default 200. -/
theorem post_home_is_not_405 :
    GetMethods (home []).1 0 = ["GET"] ∧
      (serveHome [] "POST" "/").rw.status = none ∧
      (serveHome [] "POST" "/").rw.finalStatus ≠ 405 := by
  decide

/-- C4, amended: `ServeHTTP` does no method filtering.  For every request whose
path matches the pattern of some registered route, whatever the request method
and the method sets of the routes, dispatch selects the first path-matching
route and runs the middleware chain with it: `ServeHTTP` itself writes neither
status 405 nor 404, the first middleware, if there is one, is called with the
request and that route, every middleware call is made with them, and a request
for the same path with another method, which the middlewares treat alike, gets
the same response from `ServeHTTP`. -/
theorem dispatch_ignores_method {σ H : Type} (rx : Matcher) (h : Heap H) (r : Router σ H)
    (env : σ) (req : Request)
    (hmatch : ∃ q ∈ r.registeredRoutes, rx (GetPattern h q) req.Path = true) :
    ∃ route, GetRouteByPath rx h r req.Path = some route ∧
      (ServeHTTP rx h r env ResponseWriter.fresh req).rw.status ≠ some 405 ∧
      (ServeHTTP rx h r env ResponseWriter.fresh req).rw.status ≠ some 404 ∧
      (r.activeMiddlewares ≠ [] →
        (ServeHTTP rx h r env ResponseWriter.fresh req).calls.head?
          = some (Call.middleware 0 req route)) ∧
      (∀ (i : Nat) (q : Request) (p : Ptr),
        Call.middleware i q p ∈ (ServeHTTP rx h r env ResponseWriter.fresh req).calls →
          q = req ∧ p = route) ∧
      ∀ method : String,
        (∀ m ∈ r.activeMiddlewares, ∀ (e : σ) (p : Ptr),
          m.handler e h ⟨method, req.Path⟩ p = m.handler e h req p) →
        (ServeHTTP rx h r env ResponseWriter.fresh ⟨method, req.Path⟩).rw
            = (ServeHTTP rx h r env ResponseWriter.fresh req).rw ∧
          (ServeHTTP rx h r env ResponseWriter.fresh ⟨method, req.Path⟩).env
            = (ServeHTTP rx h r env ResponseWriter.fresh req).env := by
  cases hr : GetRouteByPath rx h r req.Path with
  | none =>
    obtain ⟨q, hq, hm⟩ := hmatch
    have := (scan_eq_none_iff rx h req.Path r.registeredRoutes).1 hr q hq
    rw [hm] at this
    cases this
  | some route =>
    have hst : (ServeHTTP rx h r env ResponseWriter.fresh req).rw.finalStatus = 200 := by
      simp only [ServeHTTP, hr]
      exact chain_status h req route _ _ _ _ _ rfl
    refine ⟨route, rfl, ?_, ?_, ?_, ?_, ?_⟩
    · intro h405
      simp [ResponseWriter.finalStatus, h405] at hst
    · intro h404
      simp [ResponseWriter.finalStatus, h404] at hst
    · intro hne
      simp only [ServeHTTP, hr]
      cases hms : r.activeMiddlewares with
      | nil => exact absurd hms hne
      | cons m ms => exact chain_calls_head h req route m ms env _
    · intro i q p hc
      simp only [ServeHTTP, hr] at hc
      rcases chain_calls_middleware h req route _ _ _ _ _ _ hc with hc | ⟨k, hc⟩
      · cases hc
      · simp only [Call.middleware.injEq] at hc
        exact ⟨hc.2.1, hc.2.2⟩
    · intro method hblind
      have hr2 : GetRouteByPath rx h r (⟨method, req.Path⟩ : Request).Path = some route := hr
      simp only [ServeHTTP, hr, hr2]
      exact chain_req_blind h ⟨method, req.Path⟩ req route r.activeMiddlewares
        (fun m hm e => hblind m hm e route) 0 env _ [] []

/-- Witness of the amended C4: the route `home` accepts `[GET]` only.  A POST to
`/` is handed to the middleware with that route, is not answered 405, and gets
the response of a GET; the same holds without middlewares. -/
theorem dispatch_ignores_method_witness :
    GetMethods (home [passing]).1 0 = ["GET"] ∧
      (serveHome [passing] "POST" "/").rw.status ≠ some 405 ∧
      (serveHome [passing] "POST" "/").calls.head? = some (Call.middleware 0 ⟨"POST", "/"⟩ 0) ∧
      (serveHome [passing] "GET" "/").rw = (serveHome [passing] "POST" "/").rw ∧
      (serveHome [] "POST" "/").rw.status ≠ some 405 ∧
      (serveHome [] "GET" "/").rw = (serveHome [] "POST" "/").rw := by
  obtain ⟨route, hroute, h405, _, hhead, _, hsame⟩ :=
    dispatch_ignores_method regexpMatch (home [passing]).1 (home [passing]).2.1 0
      ⟨"POST", "/"⟩ ⟨0, by decide, by decide⟩
  obtain ⟨_, _, hno405, _, _, _, hsameEmpty⟩ :=
    dispatch_ignores_method regexpMatch (home []).1 (home []).2.1 0
      ⟨"POST", "/"⟩ ⟨0, by decide, by decide⟩
  have hzero : route = 0 := by
    have h0 : GetRouteByPath regexpMatch (home [passing]).1 (home [passing]).2.1 "/" = some 0 := by
      decide
    exact Option.some.inj (hroute.symm.trans h0)
  subst hzero
  exact ⟨by decide, h405, hhead (by simp [home]),
    (hsame "GET" (fun m _ e p => by
      have hm : m = passing := by simpa [home] using ‹m ∈ (home [passing]).2.1.activeMiddlewares›
      subst hm; rfl)).1,
    hno405, (hsameEmpty "GET" (fun m hm e p => by simp [home] at hm)).1⟩

/-- C5 on the code: `ServeHTTP` never calls a handler.  No call it makes is a
handler call, and a GET to `/` on the `home` router without middlewares makes no
call at all and writes nothing. -/
theorem handler_never_invoked :
    (∀ (σ H : Type) (rx : Matcher) (h : Heap H) (r : Router σ H) (env : σ)
        (rw : ResponseWriter) (req req1 : Request) (p : Ptr),
      Call.handlerFunc p req1 ∉ (ServeHTTP rx h r env rw req).calls) ∧
    GetRouteByPath regexpMatch (home []).1 (home []).2.1 "/" = some 0 ∧
    GetHandlerFunc (home []).1 0 = some 1 ∧
    (serveHome [] "GET" "/").calls = [] ∧
    (serveHome [] "GET" "/").rw.status = none ∧
    (serveHome [] "GET" "/").rw.body = "" := by
  refine ⟨?_, by decide, by decide, by decide, by decide, by decide⟩
  intro σ H rx h r env rw req req1 p hc
  cases hr : GetRouteByPath rx h r req.Path with
  | none => simp [ServeHTTP, hr] at hc
  | some route =>
    simp only [ServeHTTP, hr] at hc
    rcases chain_calls_middleware h req route _ _ _ _ _ _ hc with hc | ⟨i, hc⟩
    · cases hc
    · cases hc

/-- C6: middleware order and short-circuit.  For a request whose path matches a
route, the middlewares are called in registration order with the request and the
matched route.  If all return nil, all are called, once each.  If the middleware
at index `i` is the first to return an error `e`, exactly the middlewares
`0..i` are called in that order, none after `i`, no handler, and the body is
`e`. -/
theorem middleware_short_circuit {σ H : Type} (rx : Matcher) (h : Heap H) (r : Router σ H)
    (env : σ) (req : Request) (route : Ptr)
    (hroute : GetRouteByPath rx h r req.Path = some route) :
    ((∀ j, j < r.activeMiddlewares.length →
        errAt h req route r.activeMiddlewares env j = none) →
      (ServeHTTP rx h r env ResponseWriter.fresh req).calls =
        (List.range r.activeMiddlewares.length).map (fun k => Call.middleware k req route)) ∧
    (∀ (i : Nat) (e : String),
      (∀ j, j < i → errAt h req route r.activeMiddlewares env j = none) →
      errAt h req route r.activeMiddlewares env i = some e →
        (ServeHTTP rx h r env ResponseWriter.fresh req).calls =
          (List.range (i + 1)).map (fun k => Call.middleware k req route) ∧
        (∀ k, i < k → ∀ q p, Call.middleware k q p ∉
          (ServeHTTP rx h r env ResponseWriter.fresh req).calls) ∧
        (∀ q p, Call.handlerFunc p q ∉ (ServeHTTP rx h r env ResponseWriter.fresh req).calls) ∧
        (ServeHTTP rx h r env ResponseWriter.fresh req).rw.body = e ∧
        (ServeHTTP rx h r env ResponseWriter.fresh req).env =
          envAfter h req route r.activeMiddlewares env (i + 1)) := by
  constructor
  · intro hnil
    simp only [ServeHTTP, hroute]
    rw [chain_all_nil h req route _ 0 env _ [] hnil]
    simp
  · intro i e hnil herr
    have hres := chain_first_error h req route r.activeMiddlewares 0 env
      (ResponseWriter.fresh.SetHeader "Access-Control-Allow-Origin" "*") [] i e hnil herr
    simp only [ServeHTTP, hroute]
    rw [hres]
    refine ⟨by simp, ?_, ?_, ?_, rfl⟩
    · intro k hk q p hmem
      simp only [List.nil_append, List.mem_map, List.mem_range, Call.middleware.injEq] at hmem
      obtain ⟨a, ha, hak, _⟩ := hmem
      omega
    · intro q p hmem
      simp at hmem
    · simp [ResponseWriter.Write, ResponseWriter.WriteHeader, ResponseWriter.SetHeader,
        ResponseWriter.fresh]

/-- Witness of C6: middleware 2 of 3 rejects a GET to `/` on the `home` router;
the first two middlewares are called, the third is not, and the body is the
error message. -/
theorem middleware_short_circuit_witness :
    (serveHome [passing, rejecting "denied", passing] "GET" "/").calls =
        [Call.middleware 0 ⟨"GET", "/"⟩ 0, Call.middleware 1 ⟨"GET", "/"⟩ 0] ∧
      (serveHome [passing, rejecting "denied", passing] "GET" "/").rw.body = "denied" ∧
      (serveHome [passing, rejecting "denied", passing] "GET" "/").env = 2 :=
  have hw := (middleware_short_circuit regexpMatch (home [passing, rejecting "denied", passing]).1
    (home [passing, rejecting "denied", passing]).2.1 0 ⟨"GET", "/"⟩ 0 (by decide)).2 1 "denied"
    (by decide) (by decide)
  ⟨hw.1, hw.2.2.2.1, hw.2.2.2.2⟩

/-- C7, as stated, fails: when middleware 2 of 3 rejects a GET to `/` on the
`home` router, the status is 200, not a 4xx status. -/
theorem rejected_request_status_200 :
    (serveHome [passing, rejecting "denied", passing] "GET" "/").rw.status = some 200 ∧
      ¬ (400 ≤ (serveHome [passing, rejecting "denied", passing] "GET" "/").rw.finalStatus ∧
        (serveHome [passing, rejecting "denied", passing] "GET" "/").rw.finalStatus < 500) := by
  decide

/-- C7, amended: when a middleware rejects a matched request, `ServeHTTP` writes
the error message as the body without calling `WriteHeader`, so the status is
the default 200 and the body is the message of the first error. -/
theorem rejected_request_body {σ H : Type} (rx : Matcher) (h : Heap H) (r : Router σ H)
    (env : σ) (req : Request) (route : Ptr) (i : Nat) (e : String)
    (hroute : GetRouteByPath rx h r req.Path = some route)
    (hnil : ∀ j, j < i → errAt h req route r.activeMiddlewares env j = none)
    (herr : errAt h req route r.activeMiddlewares env i = some e) :
    (ServeHTTP rx h r env ResponseWriter.fresh req).rw.status = some 200 ∧
      (ServeHTTP rx h r env ResponseWriter.fresh req).rw.body = e := by
  have hres := chain_first_error h req route r.activeMiddlewares 0 env
    (ResponseWriter.fresh.SetHeader "Access-Control-Allow-Origin" "*") [] i e hnil herr
  simp only [ServeHTTP, hroute]
  rw [hres]
  simp [ResponseWriter.Write, ResponseWriter.WriteHeader, ResponseWriter.SetHeader,
    ResponseWriter.fresh]

/-- Witness of the amended C7: the first middleware rejects a GET to `/` on the
`home` router. -/
theorem rejected_request_body_witness :
    (serveHome [rejecting "forbidden"] "GET" "/").rw.status = some 200 ∧
      (serveHome [rejecting "forbidden"] "GET" "/").rw.body = "forbidden" :=
  rejected_request_body regexpMatch (home [rejecting "forbidden"]).1
    (home [rejecting "forbidden"]).2.1 0 ⟨"GET", "/"⟩ 0 0 "forbidden" (by decide)
    (by intro j hj; omega) (by decide)

/-- C8: when no registered route has a pattern matching the path, `ServeHTTP`
answers 404 with the body `404` and calls no middleware and no handler. -/
theorem no_match_404 {σ H : Type} (rx : Matcher) (h : Heap H) (r : Router σ H)
    (env : σ) (req : Request)
    (hno : ∀ q ∈ r.registeredRoutes, rx (GetPattern h q) req.Path = false) :
    (ServeHTTP rx h r env ResponseWriter.fresh req).rw.status = some 404 ∧
      (ServeHTTP rx h r env ResponseWriter.fresh req).rw.body = "404" ∧
      (ServeHTTP rx h r env ResponseWriter.fresh req).calls = [] ∧
      (ServeHTTP rx h r env ResponseWriter.fresh req).env = env := by
  have hr : GetRouteByPath rx h r req.Path = none :=
    (scan_eq_none_iff rx h req.Path r.registeredRoutes).2 hno
  simp [ServeHTTP, hr, ResponseWriter.Write, ResponseWriter.WriteHeader,
    ResponseWriter.SetHeader, ResponseWriter.fresh]

/-- Witness of C8: the only route has the pattern `^/$`; a request for `/missing`
is answered 404 and the middleware is not called. -/
theorem no_match_404_witness :
    (serveHome [passing] "GET" "/missing").rw.status = some 404 ∧
      (serveHome [passing] "GET" "/missing").rw.body = "404" ∧
      (serveHome [passing] "GET" "/missing").calls = [] ∧
      (serveHome [passing] "GET" "/missing").env = 0 :=
  no_match_404 regexpMatch (home [passing]).1 (home [passing]).2.1 0 ⟨"GET", "/missing"⟩
    (by decide)

/-! ## Reload -/

section ReloadLemmas

variable {σ H : Type}

theorem ReloadRoutes_clean (h : Heap H) (r : Router σ H) (hclean : r.routesChanged = false) :
    ReloadRoutes h r = ⟨h, r, []⟩ := by
  simp [ReloadRoutes, hclean]

theorem ReloadRoutes_routesChanged (h : Heap H) (r : Router σ H) :
    (ReloadRoutes h r).router.routesChanged = false := by
  cases hc : r.routesChanged <;> simp [ReloadRoutes, hc]

end ReloadLemmas

/-- C9: reload is idempotent.  A second `ReloadRoutes` right after a first one
leaves the routes, the router (registered routes, dirty flag, middlewares and
decorators) as the first call left them, applies no decorator, and
`GetRouteByPath` answers every path as after the first call. -/
theorem reload_idempotent {σ H : Type} (h : Heap H) (r : Router σ H) :
    (ReloadRoutes (ReloadRoutes h r).heap (ReloadRoutes h r).router).heap
        = (ReloadRoutes h r).heap ∧
      (ReloadRoutes (ReloadRoutes h r).heap (ReloadRoutes h r).router).router
        = (ReloadRoutes h r).router ∧
      (ReloadRoutes (ReloadRoutes h r).heap (ReloadRoutes h r).router).applied = [] ∧
      ∀ (rx : Matcher) (path : String),
        GetRouteByPath rx (ReloadRoutes (ReloadRoutes h r).heap (ReloadRoutes h r).router).heap
            (ReloadRoutes (ReloadRoutes h r).heap (ReloadRoutes h r).router).router path
          = GetRouteByPath rx (ReloadRoutes h r).heap (ReloadRoutes h r).router path := by
  have hclean := ReloadRoutes_routesChanged h r
  rw [ReloadRoutes_clean _ _ hclean]
  exact ⟨rfl, rfl, rfl, fun _ _ => rfl⟩

/-- C10: `ReloadRoutes` is a no-op in the Clean state: the routes and the router
(registered routes, dirty flag, middlewares and decorators) are unchanged and no
decorator is applied. -/
theorem reload_clean_noop {σ H : Type} (h : Heap H) (r : Router σ H)
    (hclean : r.routesChanged = false) :
    (ReloadRoutes h r).heap = h ∧ (ReloadRoutes h r).router = r ∧
      (ReloadRoutes h r).router.registeredRoutes = r.registeredRoutes ∧
      (ReloadRoutes h r).router.routesChanged = false ∧
      (ReloadRoutes h r).applied = [] := by
  rw [ReloadRoutes_clean h r hclean]
  exact ⟨rfl, rfl, rfl, hclean, rfl⟩

/-- Witness of C10: a Clean router with a route, a decorator and a middleware. -/
theorem reload_clean_noop_witness :
    (ReloadRoutes cleanRouter.1 cleanRouter.2).heap = cleanRouter.1 ∧
      (ReloadRoutes cleanRouter.1 cleanRouter.2).router = cleanRouter.2 ∧
      (ReloadRoutes cleanRouter.1 cleanRouter.2).router.registeredRoutes
        = cleanRouter.2.registeredRoutes ∧
      (ReloadRoutes cleanRouter.1 cleanRouter.2).router.routesChanged = false ∧
      (ReloadRoutes cleanRouter.1 cleanRouter.2).applied = [] :=
  reload_clean_noop cleanRouter.1 cleanRouter.2 rfl

/-! ## Lemmas on the heap and on a Dirty reload -/

section HeapLemmas

variable {σ H : Type}

theorem deref_append_left (h l : Heap H) (p : Ptr) (hp : p < h.length) :
    (h ++ l).deref p = h.deref p := by
  simp [Heap.deref, List.getElem?_append_left hp]

theorem deref_append_length (h : Heap H) (x : Route H) : (h ++ [x]).deref h.length = x := by
  simp [Heap.deref]

theorem set_append_length (h : Heap H) (x y : Route H) :
    (h ++ [x]).set h.length y = h ++ [y] := by
  rw [List.set_append_right _ _ (Nat.le_refl _)]
  simp

/-- One iteration of the route loop on a route that exists: a fresh copy of the
route is allocated and registered. -/
theorem step_eq (st : Reloaded σ H) (route : Ptr) (hr : route < st.heap.length) :
    ReloadRoutes.step st route =
      ⟨st.heap ++ [st.heap.deref route], AddRoute st.router st.heap.length,
        (ReloadRoutes.decorate route (st.heap.deref route) st.router.routeDecorators 0
          (GetHandlerFunc st.heap route) st.applied).2⟩ := by
  simp only [ReloadRoutes.step, GetRoute, NewRoute, SetName, SetMethods, SetPattern,
    SetHandlerFunc, GetName, GetMethods, GetPattern, GetHandlerFunc, set_append_length,
    deref_append_length, deref_append_left _ _ _ hr, Route.blank]

theorem foldl_step_heap (rs : List Ptr) (st : Reloaded σ H)
    (hrs : ∀ p ∈ rs, p < st.heap.length) :
    (rs.foldl ReloadRoutes.step st).heap = st.heap ++ rs.map st.heap.deref ∧
      (rs.foldl ReloadRoutes.step st).router.registeredRoutes
        = st.router.registeredRoutes ++ List.range' st.heap.length rs.length ∧
      (rs.foldl ReloadRoutes.step st).router.routeDecorators = st.router.routeDecorators ∧
      (rs.foldl ReloadRoutes.step st).router.activeMiddlewares
        = st.router.activeMiddlewares := by
  induction rs generalizing st with
  | nil => simp
  | cons a t ih =>
    have ha : a < st.heap.length := hrs a (by simp)
    have ht : ∀ p ∈ t, p < st.heap.length := fun p hp => hrs p (by simp [hp])
    rw [List.foldl_cons, step_eq st a ha]
    have := ih ⟨st.heap ++ [st.heap.deref a], AddRoute st.router st.heap.length,
        (ReloadRoutes.decorate a (st.heap.deref a) st.router.routeDecorators 0
          (GetHandlerFunc st.heap a) st.applied).2⟩
      (by
        intro p hp
        show p < (st.heap ++ [st.heap.deref a]).length
        rw [List.length_append]
        exact Nat.lt_add_right _ (ht p hp))
    obtain ⟨h1, h2, h3, h4⟩ := this
    refine ⟨?_, ?_, ?_, ?_⟩
    · rw [h1]
      simp only [List.map_cons, List.append_assoc, List.singleton_append, List.append_cancel_left_eq,
        List.cons.injEq, true_and]
      apply List.map_congr_left
      intro p hp
      exact deref_append_left _ _ _ (ht p hp)
    · rw [h2]
      simp [AddRoute, List.range'_succ]
    · rw [h3]; rfl
    · rw [h4]; rfl

/-- The state a Dirty reload leaves, for a router whose route pointers are
valid. -/
theorem ReloadRoutes_dirty (h : Heap H) (r : Router σ H) (hdirty : r.routesChanged = true)
    (hwf : ∀ p ∈ r.registeredRoutes, p < h.length) :
    (ReloadRoutes h r).heap = h ++ r.registeredRoutes.map h.deref ∧
      (ReloadRoutes h r).router.registeredRoutes
        = r.registeredRoutes ++ List.range' h.length r.registeredRoutes.length ∧
      (ReloadRoutes h r).router.routeDecorators = r.routeDecorators ∧
      (ReloadRoutes h r).router.activeMiddlewares = r.activeMiddlewares := by
  have := foldl_step_heap r.registeredRoutes (⟨h, r, []⟩ : Reloaded σ H) hwf
  simpa [ReloadRoutes, hdirty] using this

end HeapLemmas

section ScanAppend

variable {H : Type}

theorem scan_append (rx : Matcher) (h : Heap H) (path : String) (l1 l2 : List Ptr) :
    GetRouteByPath.scan rx h path (l1 ++ l2) =
      match GetRouteByPath.scan rx h path l1 with
      | some p => some p
      | none => GetRouteByPath.scan rx h path l2 := by
  induction l1 with
  | nil => simp [GetRouteByPath.scan]
  | cons a t ih =>
    by_cases ha : rx (GetPattern h a) path = true
    · simp [GetRouteByPath.scan, ha]
    · simp [GetRouteByPath.scan, ha, ih]

theorem scan_congr (rx : Matcher) (h h1 : Heap H) (path : String) (l : List Ptr)
    (heq : ∀ p ∈ l, GetPattern h1 p = GetPattern h p) :
    GetRouteByPath.scan rx h1 path l = GetRouteByPath.scan rx h path l := by
  induction l with
  | nil => rfl
  | cons a t ih =>
    have ha := heq a (by simp)
    have ht := ih (fun p hp => heq p (by simp [hp]))
    simp [GetRouteByPath.scan, ha, ht]

end ScanAppend

/-! ## Registration and lookup by name -/

/-- C11: `ReloadRoutes` always ends in the Clean state.  For every router
`routesChanged` is false when it returns; on the Dirty router with routes `a`
and `b` the loop registers routes through `AddRoute` and the flag still ends
false. -/
theorem reload_ends_clean :
    (∀ (σ H : Type) (h : Heap H) (r : Router σ H),
      (ReloadRoutes h r).router.routesChanged = false) ∧
    dirtyRouter.2.routesChanged = true ∧
    (ReloadRoutes dirtyRouter.1 dirtyRouter.2).router.registeredRoutes = [0, 1, 2, 3] ∧
    (ReloadRoutes dirtyRouter.1 dirtyRouter.2).router.routesChanged = false := by
  refine ⟨?_, by decide, by decide, by decide⟩
  intro σ H h r
  exact ReloadRoutes_routesChanged h r

/-- C12 on the code: a Dirty reload does not update in place.  The routes `a`
and `b` have distinct names; after `ReloadRoutes` the registered names are
`a, b, a, b`: each route was added again. -/
theorem reload_adds_routes_again :
    regNames dirtyRouter.1 dirtyRouter.2 = ["a", "b"] ∧
    (regNames dirtyRouter.1 dirtyRouter.2).Nodup ∧
    dirtyRouter.2.routesChanged = true ∧
    regNames (ReloadRoutes dirtyRouter.1 dirtyRouter.2).heap
      (ReloadRoutes dirtyRouter.1 dirtyRouter.2).router = ["a", "b", "a", "b"] ∧
    (ReloadRoutes dirtyRouter.1 dirtyRouter.2).router.registeredRoutes.length = 4 := by
  decide

/-- C13 on the code: `GetRoute` returns nil for every router and name; the route
`a` is registered and `GetRoute("a")` is nil. -/
theorem GetRoute_returns_nil :
    (∀ (σ H : Type) (h : Heap H) (r : Router σ H) (name : String), GetRoute h r name = none) ∧
    0 ∈ itemsAB.2.1.registeredRoutes ∧
    GetName itemsAB.1 0 = "a" ∧
    GetRoute itemsAB.1 itemsAB.2.1 "a" = none := by
  refine ⟨fun _ _ _ _ _ => rfl, by decide, by decide, rfl⟩

/-- C16: `AddRoute` appends the route to `registeredRoutes`, sets
`routesChanged`, and leaves middlewares and decorators alone; `CreateRoute`
allocates a route with exactly the given name, pattern, handler and methods,
changes no existing route, and registers the new route as `AddRoute` does. -/
theorem add_route_appends {σ H : Type} (h : Heap H) (r : Router σ H) (route : Ptr)
    (name pattern : String) (handlerFunc : Option H) (methods : List String) :
    (AddRoute r route).registeredRoutes = r.registeredRoutes ++ [route] ∧
    (AddRoute r route).routesChanged = true ∧
    (AddRoute r route).activeMiddlewares = r.activeMiddlewares ∧
    (AddRoute r route).routeDecorators = r.routeDecorators ∧
    (CreateRoute h r name pattern handlerFunc methods).1
      = h ++ [⟨name, methods, pattern, handlerFunc⟩] ∧
    (CreateRoute h r name pattern handlerFunc methods).2.2 = h.length ∧
    (CreateRoute h r name pattern handlerFunc methods).1.deref
        (CreateRoute h r name pattern handlerFunc methods).2.2
      = ⟨name, methods, pattern, handlerFunc⟩ ∧
    (CreateRoute h r name pattern handlerFunc methods).2.1
      = AddRoute r (CreateRoute h r name pattern handlerFunc methods).2.2 := by
  refine ⟨rfl, rfl, rfl, rfl, rfl, rfl, ?_, rfl⟩
  simp [CreateRoute, Heap.deref]

/-- C17: a route is online right after `AddRoute`.  If the pattern of the added
route matches the path, `GetRouteByPath` returns a route without any reload, and
it returns the added route when no route registered before matches. -/
theorem route_online_after_add {σ H : Type} (rx : Matcher) (h : Heap H) (r : Router σ H)
    (route : Ptr) (path : String) (hm : rx (GetPattern h route) path = true) :
    (∃ p, GetRouteByPath rx h (AddRoute r route) path = some p) ∧
      ((∀ q ∈ r.registeredRoutes, rx (GetPattern h q) path = false) →
        GetRouteByPath rx h (AddRoute r route) path = some route) := by
  have hlast : GetRouteByPath.scan rx h path [route] = some route := by
    simp [GetRouteByPath.scan, hm]
  constructor
  · simp only [GetRouteByPath, AddRoute, scan_append, hlast]
    cases GetRouteByPath.scan rx h path r.registeredRoutes with
    | none => exact ⟨route, rfl⟩
    | some p => exact ⟨p, rfl⟩
  · intro hno
    have := (scan_eq_none_iff rx h path r.registeredRoutes).2 hno
    simp only [GetRouteByPath, AddRoute, scan_append, hlast, this]

/-- Witness of C17: the route `home` is added to a new router and `/` is
dispatched to it at once. -/
theorem route_online_after_add_witness :
    (∃ p, GetRouteByPath regexpMatch unregistered.1 (AddRoute unregistered.2 0) "/" = some p) ∧
      GetRouteByPath regexpMatch unregistered.1 (AddRoute unregistered.2 0) "/" = some 0 :=
  have hw := route_online_after_add regexpMatch unregistered.1 unregistered.2 0 "/" (by decide)
  ⟨hw.1, hw.2 (by decide)⟩

section RegistrationLemmas

variable {σ H : Type}

theorem GetName_append_left (h l : Heap H) (p : Ptr) (hp : p < h.length) :
    GetName (h ++ l) p = GetName h p := by
  simp [GetName, deref_append_left h l p hp]

theorem GetPattern_append_left (h l : Heap H) (p : Ptr) (hp : p < h.length) :
    GetPattern (h ++ l) p = GetPattern h p := by
  simp [GetPattern, deref_append_left h l p hp]

/-- Every registration call allocates one route with the name passed and
registers its address. -/
theorem Registration.apply_eq (s : Heap H × Router σ H) (op : Registration H) :
    ∃ x : Route H, x.name = op.name ∧
      Registration.apply s op = (s.1 ++ [x], AddRoute s.2 s.1.length) := by
  cases op with
  | create name pattern handlerFunc methods =>
    exact ⟨⟨name, methods, pattern, handlerFunc⟩, rfl, rfl⟩
  | add route => exact ⟨route, rfl, rfl⟩

theorem foldl_apply_names (ops : List (Registration H)) (s : Heap H × Router σ H)
    (hwf : ∀ p ∈ s.2.registeredRoutes, p < s.1.length) :
    regNames (ops.foldl Registration.apply s).1 (ops.foldl Registration.apply s).2
      = regNames s.1 s.2 ++ ops.map Registration.name := by
  induction ops generalizing s with
  | nil => simp
  | cons op t ih =>
    obtain ⟨x, hx, hop⟩ := Registration.apply_eq s op
    rw [List.foldl_cons, hop]
    have hwf1 : ∀ p ∈ (AddRoute s.2 s.1.length).registeredRoutes, p < (s.1 ++ [x]).length := by
      intro p hp
      simp only [AddRoute, List.mem_append, List.mem_singleton] at hp
      rw [List.length_append]
      rcases hp with hp | hp
      · exact Nat.lt_add_right _ (hwf p hp)
      · subst hp; simp
    rw [ih (s.1 ++ [x], AddRoute s.2 s.1.length) hwf1]
    have hold : List.map (GetName (s.1 ++ [x])) s.2.registeredRoutes
        = List.map (GetName s.1) s.2.registeredRoutes :=
      List.map_congr_left (fun p hp => GetName_append_left _ _ _ (hwf p hp))
    simp [regNames, AddRoute, hold, GetName, deref_append_length, hx]

end RegistrationLemmas

/-- C14, as stated, fails: after `CreateRoute` is called with the name `a` twice
and with the empty name once, all three routes are registered; the names are
neither pairwise distinct nor all non-empty. -/
theorem duplicate_and_empty_names_registered :
    regNames duplicates.1 duplicates.2 = ["a", "a", ""] ∧
      ¬ (regNames duplicates.1 duplicates.2).Nodup ∧
      "" ∈ regNames duplicates.1 duplicates.2 := by
  decide

/-- C14, amended: the router does not check names.  In every state reached from
`NewRouter` by `CreateRoute` and `AddRoute` calls the registered names are the
names passed, in call order; so they are non-empty and pairwise distinct exactly
when the names passed are. -/
theorem registered_names_as_given {σ H : Type} (ops : List (Registration H)) :
    regNames (registerAll ops : Heap H × Router σ H).1 (registerAll ops : Heap H × Router σ H).2
        = ops.map Registration.name ∧
      (((∀ n ∈ regNames (registerAll ops : Heap H × Router σ H).1
            (registerAll ops : Heap H × Router σ H).2, n ≠ "") ∧
          (regNames (registerAll ops : Heap H × Router σ H).1
            (registerAll ops : Heap H × Router σ H).2).Nodup) ↔
        ((∀ n ∈ ops.map Registration.name, n ≠ "") ∧ (ops.map Registration.name).Nodup)) := by
  have hnames : regNames (registerAll ops : Heap H × Router σ H).1
      (registerAll ops : Heap H × Router σ H).2 = ops.map Registration.name := by
    have := foldl_apply_names ops
      ((NewRouter : Reloaded σ H).heap, (NewRouter : Reloaded σ H).router)
      (by intro p hp; simp [NewRouter, ReloadRoutes] at hp)
    simpa [registerAll, regNames, NewRouter, ReloadRoutes] using this
  exact ⟨hnames, by rw [hnames]⟩

/-! ## The shape of a Dirty reload -/

section ShapeLemmas

variable {σ H : Type}

theorem deref_fresh (h : Heap H) (rr : List Ptr) (i : Nat) (p : Ptr) (hi : rr[i]? = some p) :
    (h ++ rr.map h.deref).deref (h.length + i) = h.deref p := by
  simp [Heap.deref, List.getElem?_append_right, hi]

theorem decorate_log_length (route : Ptr) (value : Route H) (ds : List (RouteDecorator H))
    (i : Nat) (handler : Option H) (log : List Decoration) :
    (ReloadRoutes.decorate route value ds i handler log).2.length = log.length + ds.length := by
  induction ds generalizing i handler log with
  | nil => simp [ReloadRoutes.decorate]
  | cons d t ih =>
    simp only [ReloadRoutes.decorate, ih, List.length_append, List.length_cons, List.length_nil]
    omega

theorem foldl_step_applied (rs : List Ptr) (st : Reloaded σ H)
    (hrs : ∀ p ∈ rs, p < st.heap.length) :
    (rs.foldl ReloadRoutes.step st).applied.length
      = st.applied.length + rs.length * st.router.routeDecorators.length := by
  induction rs generalizing st with
  | nil => simp
  | cons a t ih =>
    have ha : a < st.heap.length := hrs a (by simp)
    rw [List.foldl_cons, step_eq st a ha, ih]
    · simp only [decorate_log_length, AddRoute, List.length_cons, Nat.add_mul, Nat.one_mul]
      omega
    · intro p hp
      show p < (st.heap ++ [st.heap.deref a]).length
      rw [List.length_append]
      exact Nat.lt_add_right _ (hrs p (by simp [hp]))

/-- After a Dirty reload the scan of the registered routes answers as before. -/
theorem reload_scan_eq (rx : Matcher) (h : Heap H) (r : Router σ H) (path : String)
    (hdirty : r.routesChanged = true) (hwf : ∀ p ∈ r.registeredRoutes, p < h.length) :
    GetRouteByPath rx (ReloadRoutes h r).heap (ReloadRoutes h r).router path
      = GetRouteByPath rx h r path := by
  obtain ⟨hh, hr, _, _⟩ := ReloadRoutes_dirty h r hdirty hwf
  have hold : GetRouteByPath.scan rx (h ++ r.registeredRoutes.map h.deref) path
      r.registeredRoutes = GetRouteByPath.scan rx h path r.registeredRoutes :=
    scan_congr rx h _ path _ (fun p hp => GetPattern_append_left _ _ _ (hwf p hp))
  simp only [GetRouteByPath, hr, hh, scan_append, hold]
  cases hs : GetRouteByPath.scan rx h path r.registeredRoutes with
  | some p => rfl
  | none =>
    simp only
    rw [scan_eq_none_iff]
    intro (q : Nat) hq
    rw [List.mem_range'_1] at hq
    have hq1 : @LE.le Nat _ h.length q := hq.1
    have hq2 : @LT.lt Nat _ q (h.length + r.registeredRoutes.length) := hq.2
    have hlt : q - h.length < r.registeredRoutes.length := by omega
    have hq' : q = h.length + (q - h.length) := by omega
    have hget : r.registeredRoutes[q - h.length]?
        = some (r.registeredRoutes.get ⟨q - h.length, hlt⟩) := by
      simp [List.getElem?_eq_getElem hlt]
    rw [hq', GetPattern, deref_fresh h _ _ _ hget]
    exact (scan_eq_none_iff rx h path _).1 hs _ (List.get_mem _ _ _)

end ShapeLemmas

/-- C19: the shape of a Dirty reload.  With `n` registered routes the loop
allocates exactly `n` routes and applies every decorator `n` times;
`registeredRoutes` ends with `2n` entries, of which entry `i < n` is the original
route, unchanged, and entry `n + i` is a fresh route equal to it in name,
methods, pattern and handler. -/
theorem dirty_reload_shape {σ H : Type} (h : Heap H) (r : Router σ H)
    (hdirty : r.routesChanged = true) (hwf : ∀ p ∈ r.registeredRoutes, p < h.length) :
    (ReloadRoutes h r).router.registeredRoutes.length = 2 * r.registeredRoutes.length ∧
    (ReloadRoutes h r).heap.length = h.length + r.registeredRoutes.length ∧
    (ReloadRoutes h r).applied.length = r.registeredRoutes.length * r.routeDecorators.length ∧
    ∀ (i : Nat) (p : Ptr), r.registeredRoutes[i]? = some p →
      (ReloadRoutes h r).router.registeredRoutes[i]? = some p ∧
      (ReloadRoutes h r).heap.deref p = h.deref p ∧
      (ReloadRoutes h r).router.registeredRoutes[r.registeredRoutes.length + i]?
        = some (h.length + i) ∧
      h.length + i ∉ r.registeredRoutes ∧
      (ReloadRoutes h r).heap.deref (h.length + i) = h.deref p := by
  obtain ⟨hh, hr, _, _⟩ := ReloadRoutes_dirty h r hdirty hwf
  have happ : (ReloadRoutes h r).applied.length
      = r.registeredRoutes.length * r.routeDecorators.length := by
    have := foldl_step_applied r.registeredRoutes (⟨h, r, []⟩ : Reloaded σ H) hwf
    simpa [ReloadRoutes, hdirty] using this
  refine ⟨by rw [hr]; simp; omega, by rw [hh]; simp, happ, ?_⟩
  intro i p hi
  have hlt : i < r.registeredRoutes.length := by
    by_contra hge
    rw [List.getElem?_eq_none (by omega)] at hi
    cases hi
  have hp : p ∈ r.registeredRoutes := List.getElem?_mem hi
  refine ⟨?_, ?_, ?_, ?_, ?_⟩
  · rw [hr, List.getElem?_append_left hlt, hi]
  · rw [hh]; exact deref_append_left _ _ _ (hwf p hp)
  · rw [hr, List.getElem?_append_right (by omega)]
    simp [List.getElem?_range' _ _ hlt]
  · intro hmem
    exact Nat.not_lt.2 (Nat.le_add_right h.length i) (hwf _ hmem)
  · rw [hh]; exact deref_fresh h _ i p hi

/-- Witness of C19: the Dirty router with routes `a` and `b`.  The reload leaves
four entries; entry 2 is a fresh route equal to route `a`. -/
theorem dirty_reload_shape_witness :
    (ReloadRoutes dirtyRouter.1 dirtyRouter.2).router.registeredRoutes.length = 2 * 2 ∧
      (ReloadRoutes dirtyRouter.1 dirtyRouter.2).router.registeredRoutes[2 + 0]? = some (2 + 0) ∧
      (ReloadRoutes dirtyRouter.1 dirtyRouter.2).heap.deref (2 + 0) = dirtyRouter.1.deref 0 :=
  have hw := dirty_reload_shape dirtyRouter.1 dirtyRouter.2 (by decide) (by decide)
  ⟨hw.1, (hw.2.2.2 0 0 (by decide)).2.2.1, (hw.2.2.2 0 0 (by decide)).2.2.2.2⟩

/-- C20: a reload never changes which route a path is matched to.  For every
router, Clean or Dirty, and every path, `GetRouteByPath` returns after
`ReloadRoutes` the route it returned before, or nil as before. -/
theorem reload_keeps_match {σ H : Type} (rx : Matcher) (h : Heap H) (r : Router σ H)
    (path : String) (hwf : ∀ p ∈ r.registeredRoutes, p < h.length) :
    GetRouteByPath rx (ReloadRoutes h r).heap (ReloadRoutes h r).router path
      = GetRouteByPath rx h r path := by
  cases hc : r.routesChanged with
  | false => rw [ReloadRoutes_clean h r hc]
  | true => exact reload_scan_eq rx h r path hc hwf

/-- Witness of C20: on the Dirty router with routes `a` and `b` the path
`/items/123` is matched to route `a` before and after the reload. -/
theorem reload_keeps_match_witness :
    GetRouteByPath regexpMatch (ReloadRoutes dirtyRouter.1 dirtyRouter.2).heap
        (ReloadRoutes dirtyRouter.1 dirtyRouter.2).router "/items/123"
      = GetRouteByPath regexpMatch dirtyRouter.1 dirtyRouter.2 "/items/123" :=
  reload_keeps_match regexpMatch dirtyRouter.1 dirtyRouter.2 "/items/123" (by decide)

/-! ## Decorators and invalid patterns -/

/-- C15 on the code: decorators do not take effect at reload.  On the Dirty
router with routes `a` and `b` and one decorator, the decorator is applied to
each route, turning handler 1 of route `a` into handler 11, but the route that
`GetRouteByPath` returns for `/items/123` after the reload holds handler 1, and
so does the fresh copy.  For every Dirty router the route matched after the
reload is a route registered before it, with the handler it had. -/
theorem decorated_handler_dropped :
    GetHandlerFunc dirtyRouter.1 0 = some 1 ∧
    (ReloadRoutes.decorate 0 (dirtyRouter.1.deref 0) dirtyRouter.2.routeDecorators 0
      (GetHandlerFunc dirtyRouter.1 0) []).1 = some 11 ∧
    (ReloadRoutes dirtyRouter.1 dirtyRouter.2).applied = [⟨0, 0⟩, ⟨0, 1⟩] ∧
    GetRouteByPath regexpMatch (ReloadRoutes dirtyRouter.1 dirtyRouter.2).heap
      (ReloadRoutes dirtyRouter.1 dirtyRouter.2).router "/items/123" = some 0 ∧
    GetHandlerFunc (ReloadRoutes dirtyRouter.1 dirtyRouter.2).heap 0 = some 1 ∧
    GetHandlerFunc (ReloadRoutes dirtyRouter.1 dirtyRouter.2).heap 2 = some 1 ∧
    (∀ (σ H : Type) (rx : Matcher) (h : Heap H) (r : Router σ H) (path : String) (p : Ptr),
      r.routesChanged = true → (∀ q ∈ r.registeredRoutes, q < h.length) →
      GetRouteByPath rx (ReloadRoutes h r).heap (ReloadRoutes h r).router path = some p →
        p ∈ r.registeredRoutes ∧
          GetHandlerFunc (ReloadRoutes h r).heap p = GetHandlerFunc h p) := by
  refine ⟨by decide, by decide, by decide, by decide, by decide, by decide, ?_⟩
  intro σ H rx h r path p hdirty hwf hp
  rw [reload_scan_eq rx h r path hdirty hwf] at hp
  have hmem : p ∈ r.registeredRoutes := scan_mem rx h path _ p hp
  obtain ⟨hh, _, _, _⟩ := ReloadRoutes_dirty h r hdirty hwf
  refine ⟨hmem, ?_⟩
  rw [GetHandlerFunc, hh, deref_append_left _ _ _ (hwf p hmem)]
  rfl

/-- C18, as stated, fails: the pattern `(` does not compile, yet `CreateRoute`
accepts the route into `registeredRoutes`, a reload keeps it there, and at match
time it is passed over. -/
theorem bad_pattern_is_registered :
    compile badPattern = none ∧
    withBadPattern.2.1.registeredRoutes = [0, 1] ∧
    GetPattern withBadPattern.1 1 = badPattern ∧
    GetRouteByPath regexpMatch withBadPattern.1 withBadPattern.2.1 "(" = none ∧
    (ReloadRoutes withBadPattern.1 withBadPattern.2.1).router.registeredRoutes
      = [0, 1, 2, 3] ∧
    GetPattern (ReloadRoutes withBadPattern.1 withBadPattern.2.1).heap 1 = badPattern := by
  decide

/-- C18, amended: an invalid route definition is accepted.  `CreateRoute` has no
error result; it appends a route whose pattern does not compile to
`registeredRoutes` and leaves the routes registered before intact.  At match time
`regexp.Match` reports no match for such a pattern, so `GetRouteByPath` answers
every path as it did before the registration. -/
theorem bad_pattern_accepted {σ H : Type} (rx : Matcher) (h : Heap H) (r : Router σ H)
    (name pattern : String) (handlerFunc : Option H) (methods : List String)
    (hbad : ∀ s, rx pattern s = false) (hwf : ∀ p ∈ r.registeredRoutes, p < h.length) :
    (CreateRoute h r name pattern handlerFunc methods).2.1.registeredRoutes
      = r.registeredRoutes ++ [(CreateRoute h r name pattern handlerFunc methods).2.2] ∧
    GetPattern (CreateRoute h r name pattern handlerFunc methods).1
      (CreateRoute h r name pattern handlerFunc methods).2.2 = pattern ∧
    (∀ p ∈ r.registeredRoutes,
      (CreateRoute h r name pattern handlerFunc methods).1.deref p = h.deref p) ∧
    ∀ path, GetRouteByPath rx (CreateRoute h r name pattern handlerFunc methods).1
        (CreateRoute h r name pattern handlerFunc methods).2.1 path
      = GetRouteByPath rx h r path := by
  have hpat : GetPattern (h ++ [(⟨name, methods, pattern, handlerFunc⟩ : Route H)]) h.length
      = pattern := by
    simp [GetPattern, deref_append_length]
  refine ⟨rfl, hpat, fun p hp => deref_append_left _ _ _ (hwf p hp), ?_⟩
  intro path
  have hold : GetRouteByPath.scan rx (h ++ [(⟨name, methods, pattern, handlerFunc⟩ : Route H)])
      path r.registeredRoutes = GetRouteByPath.scan rx h path r.registeredRoutes :=
    scan_congr rx h _ path _ (fun p hp => GetPattern_append_left _ _ _ (hwf p hp))
  simp only [GetRouteByPath, CreateRoute, AddRoute, scan_append, hold]
  cases GetRouteByPath.scan rx h path r.registeredRoutes with
  | some p => rfl
  | none => simp [GetRouteByPath.scan, hpat, hbad]

/-- Witness of the amended C18: a route with the pattern `(` is registered after
the route `home`; `/` is still matched to `home`. -/
theorem bad_pattern_accepted_witness :
    withBadPattern.2.1.registeredRoutes
        = (single "home" "^/$" ["GET"]).2.1.registeredRoutes ++ [withBadPattern.2.2] ∧
      GetRouteByPath regexpMatch withBadPattern.1 withBadPattern.2.1 "/"
        = GetRouteByPath regexpMatch (single "home" "^/$" ["GET"]).1
            (single "home" "^/$" ["GET"]).2.1 "/" :=
  have hw := bad_pattern_accepted regexpMatch (single "home" "^/$" ["GET"]).1
    (single "home" "^/$" ["GET"]).2.1 "bad" badPattern (some 2) []
    (fun s => by
      have hc : compile badPattern = none := by decide
      simp [regexpMatch, hc])
    (by decide)
  ⟨hw.1, hw.2.2.2 "/"⟩

end Gorouter
